import Mathlib

/-!
Verification of `fix_preferred_assets.py`: a batch script that resolves
"multiple preferred assets" conflicts in the ViewRA media-asset database.

Shallow embedding conventions:
* The `media_assets` table is a `List MediaAsset`; SQL reads/writes become
  pure list operations, threaded explicitly.
* `(assets_dir / path).exists()` is modelled by an environment function
  `fe : String → Bool` applied to the row's relative path (`assets_dir` is
  fixed for the whole run).
* Python's built-in `hash` on strings is modelled by an environment function
  `ph : String → Int`.  CPython salts string hashes per process
  (PYTHONHASHSEED), so `ph` is a per-process parameter, not a fixed function.
  Python's `%` with a positive modulus agrees with `Int.emod`.
* SQLite `NULL` in `plugin_id` is `none`; a `NULL`/empty `created_at` is the
  empty string (both are falsy under Python's `if created_at:`).
* `ORDER BY created_at DESC` is modelled as a stable descending sort on the
  `created_at` string (SQLite compares TEXT bytewise; for ASCII ISO-8601
  strings this matches Lean's string order); rows with equal `created_at`
  keep table order.  Python's `list.sort(key=..., reverse=True)` is a stable
  descending sort on the key, modelled by the same stable sort.
* The `GROUP BY ... HAVING COUNT(*) > 1` scanner query is modelled as the
  first-occurrence deduplicated list of group keys of preferred rows,
  filtered to those with more than one preferred row.  (The SQL orders the
  output by `entity_type, type`; every property proved below is independent
  of the order in which conflict groups are listed.)
-/

/-- Row of the `media_assets` table (the columns the script touches). -/
structure MediaAsset where
  id : Nat
  entity_type : String
  entity_id : String
  type : String
  path : String
  source : String
  plugin_id : Option String
  created_at : String
  preferred : Bool
deriving DecidableEq, Repr

/-- Grouping key `(entity_type, entity_id, type)` used by the scanner. -/
def groupKey (a : MediaAsset) : String × String × String :=
  (a.entity_type, a.entity_id, a.type)

/-- Existence bonus: `if full_path.exists(): score += 1000`. -/
def existsScore (fe : String → Bool) (a : MediaAsset) : Int :=
  if fe a.path then 1000 else 0

/-- Source priority: `embedded ↦ 100, plugin ↦ 90, core ↦ 80, else 70`. -/
def sourceScore (a : MediaAsset) : Int :=
  if a.source = "embedded" then 100
  else if a.source = "plugin" then 90
  else if a.source = "core" then 80
  else 70

/-- Plugin priority: `musicbrainz_enricher ↦ 20, core_enrichment ↦ 15, else 10`. -/
def pluginScore (a : MediaAsset) : Int :=
  if a.plugin_id = some "musicbrainz_enricher" then 20
  else if a.plugin_id = some "core_enrichment" then 15
  else 10

/-- Recency tie-breaker: `if created_at: score += hash(created_at) % 10`. -/
def recencyScore (ph : String → Int) (a : MediaAsset) : Int :=
  if a.created_at ≠ "" then ph a.created_at % 10 else 0

/-- Total score accumulated for one asset in the loop of `determine_best_asset`. -/
def scoreAsset (fe : String → Bool) (ph : String → Int) (a : MediaAsset) : Int :=
  existsScore fe a + sourceScore a + pluginScore a + recencyScore ph a

/-- Insert `x` into `l` keeping every earlier element that is strictly
greater (per `gt`) before it: the insertion step of a stable descending
sort. -/
def insertSortedBy (gt : α → α → Bool) (x : α) : List α → List α
  | [] => [x]
  | b :: bs => if gt b x then b :: insertSortedBy gt x bs else x :: b :: bs

/-- Stable descending sort: elements that compare equal keep their input
order.  Models both Python's stable `list.sort(key=..., reverse=True)` and
SQLite's `ORDER BY ... DESC` (refined to a stable order on ties). -/
def stableSortDesc (gt : α → α → Bool) (l : List α) : List α :=
  l.foldr (insertSortedBy gt) []

/-- First element of `l` whose `gt`-class is maximal: the earliest element
`x` such that no element strictly greater than it occurs anywhere (ties won
by the earliest).  Characterises the head of `stableSortDesc`. -/
def firstBest (gt : α → α → Bool) : List α → Option α
  | [] => none
  | x :: l =>
    match firstBest gt l with
    | none => some x
    | some h => if gt h x then some h else some x

/-- Embedding of `determine_best_asset(assets, assets_dir)`: score each
candidate, stable-sort by score descending, return the first (or `none` for
an empty candidate list). -/
def determine_best_asset (fe : String → Bool) (ph : String → Int)
    (assets : List MediaAsset) : Option MediaAsset :=
  if assets.isEmpty then none
  else
    let scored := assets.map (fun a => (scoreAsset fe ph a, a))
    let sorted := stableSortDesc (fun x y => decide (y.1 < x.1)) scored
    sorted.head?.map Prod.snd

/-- Number of rows of `db` in group `k` with `preferred = 1`: the `COUNT(*)`
of the scanner's query for that group. -/
def countPreferred (db : List MediaAsset) (k : String × String × String) : Nat :=
  db.countP (fun a => decide (groupKey a = k) && a.preferred)

/-- Scanner query: group keys having more than one preferred row
(`GROUP BY entity_type, entity_id, type HAVING COUNT(*) > 1` over
`preferred = 1` rows). -/
def conflictKeys (db : List MediaAsset) : List (String × String × String) :=
  (((db.filter (fun a => a.preferred)).map groupKey).dedup).filter
    (fun k => decide (1 < countPreferred db k))

/-- Per-group fetch: `SELECT ... WHERE entity_type = ? AND entity_id = ? AND
type = ? AND preferred = 1 ORDER BY created_at DESC`. -/
def fetchPreferred (db : List MediaAsset) (k : String × String × String) :
    List MediaAsset :=
  stableSortDesc (fun a b => decide (b.created_at < a.created_at))
    (db.filter (fun a => decide (groupKey a = k) && a.preferred))

/-- First UPDATE: `SET preferred = 0 WHERE entity_type = ? AND entity_id = ?
AND type = ?`, applied to one row. -/
def demoteRow (k : String × String × String) (a : MediaAsset) : MediaAsset :=
  if groupKey a = k then { a with preferred := false } else a

/-- Second UPDATE: `SET preferred = 1 WHERE id = ?`, applied to one row. -/
def promoteRow (bid : Nat) (a : MediaAsset) : MediaAsset :=
  if a.id = bid then { a with preferred := true } else a

/-- Body of the per-conflict loop of `fix_preferred_assets`: fetch the
group's preferred rows, pick the best, and if one was found demote the whole
group then promote the winner; otherwise leave the database unchanged. -/
def fixGroup (fe : String → Bool) (ph : String → Int)
    (db : List MediaAsset) (k : String × String × String) : List MediaAsset :=
  let preferred_assets := fetchPreferred db k
  match determine_best_asset fe ph preferred_assets with
  | none => db
  | some best => (db.map (demoteRow k)).map (promoteRow best.id)

/-- Embedding of `fix_preferred_assets(db_path, assets_dir)`: resolve every
conflict group found by the scanner, in order. -/
def fix_preferred_assets (fe : String → Bool) (ph : String → Int)
    (db : List MediaAsset) : List MediaAsset :=
  (conflictKeys db).foldl (fixGroup fe ph) db

/-- Report printed by `verify_fix`: remaining conflicts and the aggregate
counts. -/
structure VerifyReport where
  remaining_conflicts : List (String × String × String)
  preferred_count : Nat
  total_count : Nat
deriving DecidableEq, Repr

/-- Embedding of `verify_fix(db_path)`: re-run the scanner's query and
compute the aggregate counts.  All of its SQL statements are SELECTs, so it
is a pure function of the database. -/
def verify_fix (db : List MediaAsset) : VerifyReport :=
  { remaining_conflicts :=
      (((db.filter (fun a => a.preferred)).map groupKey).dedup).filter
        (fun k => decide (1 < countPreferred db k))
    preferred_count := (db.filter (fun a => a.preferred)).length
    total_count := db.length }

/-- Filesystem facts the entry point checks before doing anything. -/
structure Env where
  dbExists : Bool
  assetsDirExists : Bool

/-- Outcome of `main()`: one of the two early returns, or a completed run
carrying the final database state and the verification report. -/
inductive RunOutcome where
  | missingDb
  | missingAssetsDir
  | completed (finalDb : List MediaAsset) (report : VerifyReport)
deriving DecidableEq, Repr

namespace FixScript

/-- Embedding of `main()`: check that the database file and assets directory
exist, then run the fix followed by the verifier. -/
def main (env : Env) (fe : String → Bool) (ph : String → Int)
    (db : List MediaAsset) : RunOutcome :=
  if !env.dbExists then .missingDb
  else if !env.assetsDirExists then .missingAssetsDir
  else
    let db1 := fix_preferred_assets fe ph db
    .completed db1 (verify_fix db1)

end FixScript

/-- Forget the `preferred` flag of a row (used to state that the run changes
nothing but that flag). -/
def erasePreferred (a : MediaAsset) : MediaAsset :=
  { a with preferred := false }

/-! ### Lemmas about the stable descending sort -/

theorem stableSortDesc_cons (gt : α → α → Bool) (x : α) (l : List α) :
    stableSortDesc gt (x :: l) = insertSortedBy gt x (stableSortDesc gt l) := rfl

theorem insertSortedBy_cons (gt : α → α → Bool) (x b : α) (bs : List α) :
    insertSortedBy gt x (b :: bs) =
      if gt b x then b :: insertSortedBy gt x bs else x :: b :: bs := rfl

theorem firstBest_cons (gt : α → α → Bool) (x : α) (l : List α) :
    firstBest gt (x :: l) =
      (match firstBest gt l with
       | none => some x
       | some h => if gt h x then some h else some x) := rfl

theorem firstBest_cons_none (gt : α → α → Bool) (x : α) {l : List α}
    (hf : firstBest gt l = none) : firstBest gt (x :: l) = some x := by
  rw [firstBest_cons, hf]

theorem firstBest_cons_some (gt : α → α → Bool) (x : α) {l : List α} {m : α}
    (hf : firstBest gt l = some m) :
    firstBest gt (x :: l) = if gt m x then some m else some x := by
  rw [firstBest_cons, hf]

theorem mem_insertSortedBy (gt : α → α → Bool) (x a : α) (l : List α) :
    a ∈ insertSortedBy gt x l ↔ a = x ∨ a ∈ l := by
  induction l with
  | nil => simp [insertSortedBy]
  | cons b bs ih =>
    rw [insertSortedBy_cons]
    by_cases hgt : gt b x = true
    · rw [if_pos hgt]
      simp only [List.mem_cons, ih]
      tauto
    · rw [if_neg hgt]
      simp only [List.mem_cons]

theorem length_insertSortedBy (gt : α → α → Bool) (x : α) (l : List α) :
    (insertSortedBy gt x l).length = l.length + 1 := by
  induction l with
  | nil => rfl
  | cons b bs ih =>
    rw [insertSortedBy_cons]
    by_cases hgt : gt b x = true
    · rw [if_pos hgt]
      simp [ih]
    · rw [if_neg hgt]
      simp

theorem mem_stableSortDesc (gt : α → α → Bool) (a : α) (l : List α) :
    a ∈ stableSortDesc gt l ↔ a ∈ l := by
  induction l with
  | nil => simp [stableSortDesc]
  | cons b bs ih =>
    rw [stableSortDesc_cons, mem_insertSortedBy, ih]
    simp

theorem length_stableSortDesc (gt : α → α → Bool) (l : List α) :
    (stableSortDesc gt l).length = l.length := by
  induction l with
  | nil => rfl
  | cons b bs ih =>
    rw [stableSortDesc_cons, length_insertSortedBy, ih, List.length_cons]

theorem stableSortDesc_eq_nil_iff (gt : α → α → Bool) (l : List α) :
    stableSortDesc gt l = [] ↔ l = [] := by
  rw [← List.length_eq_zero, ← List.length_eq_zero, length_stableSortDesc]

theorem head?_insertSortedBy (gt : α → α → Bool) (x b : α) (bs : List α) :
    (insertSortedBy gt x (b :: bs)).head? =
      (if gt b x then some b else some x) := by
  rw [insertSortedBy_cons]
  by_cases hgt : gt b x = true
  · rw [if_pos hgt, if_pos hgt]
    rfl
  · rw [if_neg hgt, if_neg hgt]
    rfl

theorem firstBest_eq_none_iff (gt : α → α → Bool) (l : List α) :
    firstBest gt l = none ↔ l = [] := by
  cases l with
  | nil => simp [firstBest]
  | cons x l =>
    rcases hf : firstBest gt l with _ | m
    · rw [firstBest_cons_none gt x hf]
      simp
    · rw [firstBest_cons_some gt x hf]
      by_cases hgt : gt m x = true
      · rw [if_pos hgt]
        simp
      · rw [if_neg hgt]
        simp

theorem head?_stableSortDesc (gt : α → α → Bool) (l : List α) :
    (stableSortDesc gt l).head? = firstBest gt l := by
  induction l with
  | nil => rfl
  | cons x l ih =>
    rw [stableSortDesc_cons]
    rcases hs : stableSortDesc gt l with _ | ⟨b, bs⟩
    · have hl : l = [] := (stableSortDesc_eq_nil_iff gt l).mp hs
      subst hl
      rfl
    · have hb : firstBest gt l = some b := by
        rw [← ih, hs]
        rfl
      rw [head?_insertSortedBy, firstBest_cons_some gt x hb]

theorem firstBest_mem (gt : α → α → Bool) :
    ∀ {l : List α} {w : α}, firstBest gt l = some w → w ∈ l := by
  intro l
  induction l with
  | nil => intro w h; cases h
  | cons x l ih =>
    intro w h
    rcases hf : firstBest gt l with _ | m
    · rw [firstBest_cons_none gt x hf] at h
      cases h
      exact List.mem_cons_self _ _
    · rw [firstBest_cons_some gt x hf] at h
      by_cases hgt : gt m x = true
      · rw [if_pos hgt] at h
        cases h
        exact List.mem_cons_of_mem _ (ih hf)
      · rw [if_neg hgt] at h
        cases h
        exact List.mem_cons_self _ _

theorem firstBest_isSome (gt : α → α → Bool) {l : List α} (h : l ≠ []) :
    ∃ w, firstBest gt l = some w := by
  rcases hf : firstBest gt l with _ | w
  · exact absurd ((firstBest_eq_none_iff gt l).mp hf) h
  · exact ⟨w, rfl⟩

theorem firstBest_max (f : α → Int) :
    ∀ {l : List α} {w : α}, firstBest (fun x y => decide (f y < f x)) l = some w →
      ∀ b ∈ l, f b ≤ f w := by
  intro l
  induction l with
  | nil => intro w _ b hb; cases hb
  | cons x l ih =>
    intro w h b hb
    rcases hf : firstBest (fun x y => decide (f y < f x)) l with _ | m
    · have hl : l = [] := (firstBest_eq_none_iff _ l).mp hf
      subst hl
      rw [firstBest_cons_none _ x hf] at h
      cases h
      rcases List.mem_cons.mp hb with rfl | hb
      · exact le_refl _
      · cases hb
    · rw [firstBest_cons_some _ x hf] at h
      by_cases hxm : f x < f m
      · rw [if_pos (by simpa using hxm)] at h
        cases h
        rcases List.mem_cons.mp hb with rfl | hb
        · exact le_of_lt hxm
        · exact ih hf b hb
      · rw [if_neg (by simpa using hxm)] at h
        cases h
        rcases List.mem_cons.mp hb with rfl | hb
        · exact le_refl _
        · exact le_trans (ih hf b hb) (le_of_not_lt hxm)

theorem firstBest_split (f : α → Int) :
    ∀ {l : List α} {w : α}, firstBest (fun x y => decide (f y < f x)) l = some w →
      ∃ l1 l2, l = l1 ++ w :: l2 ∧ ∀ b ∈ l1, f b < f w := by
  intro l
  induction l with
  | nil => intro w h; cases h
  | cons x l ih =>
    intro w h
    rcases hf : firstBest (fun x y => decide (f y < f x)) l with _ | m
    · rw [firstBest_cons_none _ x hf] at h
      cases h
      exact ⟨[], l, rfl, fun b hb => absurd hb (List.not_mem_nil b)⟩
    · rw [firstBest_cons_some _ x hf] at h
      by_cases hxm : f x < f m
      · rw [if_pos (by simpa using hxm)] at h
        cases h
        obtain ⟨l1, l2, hl, hlt⟩ := ih hf
        refine ⟨x :: l1, l2, by rw [hl, List.cons_append], ?_⟩
        intro b hb
        rcases List.mem_cons.mp hb with rfl | hb
        · exact hxm
        · exact hlt b hb
      · rw [if_neg (by simpa using hxm)] at h
        cases h
        exact ⟨[], l, rfl, fun b hb => absurd hb (List.not_mem_nil b)⟩

theorem pairwise_insertSortedBy (gt : α → α → Bool) (R : α → α → Prop)
    (h1 : ∀ a b, gt a b = true → R a b)
    (h2 : ∀ a b, gt a b = false → R b a)
    (htr : ∀ a b c, R a b → R b c → R a c)
    (x : α) {l : List α} (h : l.Pairwise R) :
    (insertSortedBy gt x l).Pairwise R := by
  induction l with
  | nil => simp [insertSortedBy]
  | cons b bs ih =>
    rw [insertSortedBy_cons]
    rw [List.pairwise_cons] at h
    by_cases hgt : gt b x = true
    · rw [if_pos hgt]
      rw [List.pairwise_cons]
      constructor
      · intro c hc
        rcases (mem_insertSortedBy _ x c bs).mp hc with rfl | hc
        · exact h1 b c hgt
        · exact h.1 c hc
      · exact ih h.2
    · rw [if_neg hgt]
      rw [List.pairwise_cons]
      refine ⟨?_, List.pairwise_cons.mpr h⟩
      intro c hc
      have hxb : R x b := h2 b x (Bool.not_eq_true _ ▸ hgt)
      rcases List.mem_cons.mp hc with rfl | hc
      · exact hxb
      · exact htr x b c hxb (h.1 c hc)

theorem pairwise_stableSortDesc (gt : α → α → Bool) (R : α → α → Prop)
    (h1 : ∀ a b, gt a b = true → R a b)
    (h2 : ∀ a b, gt a b = false → R b a)
    (htr : ∀ a b c, R a b → R b c → R a c)
    (l : List α) : (stableSortDesc gt l).Pairwise R := by
  induction l with
  | nil => exact List.Pairwise.nil
  | cons x l ih =>
    rw [stableSortDesc_cons]
    exact pairwise_insertSortedBy gt R h1 h2 htr x ih

/-! ### Characterisation of `determine_best_asset` -/

theorem determine_best_asset_eq (fe : String → Bool) (ph : String → Int)
    (assets : List MediaAsset) :
    determine_best_asset fe ph assets =
      (firstBest (fun x y : Int × MediaAsset => decide (y.1 < x.1))
        (assets.map (fun a => (scoreAsset fe ph a, a)))).map Prod.snd := by
  cases assets with
  | nil => rfl
  | cons a l =>
    show (stableSortDesc _ _).head?.map Prod.snd = _
    rw [head?_stableSortDesc]

theorem determine_best_asset_isSome (fe : String → Bool) (ph : String → Int)
    {assets : List MediaAsset} (h : assets ≠ []) :
    ∃ w, determine_best_asset fe ph assets = some w ∧ w ∈ assets := by
  rw [determine_best_asset_eq]
  have hm : assets.map (fun a => (scoreAsset fe ph a, a)) ≠ [] := by
    simpa using h
  obtain ⟨wp, hwp⟩ := firstBest_isSome _ hm
  refine ⟨wp.2, by rw [hwp]; rfl, ?_⟩
  obtain ⟨a, ha, rfl⟩ := List.mem_map.mp (firstBest_mem _ hwp)
  exact ha

theorem determine_best_asset_spec (fe : String → Bool) (ph : String → Int)
    {assets : List MediaAsset} {w : MediaAsset}
    (h : determine_best_asset fe ph assets = some w) :
    (∀ b ∈ assets, scoreAsset fe ph b ≤ scoreAsset fe ph w) ∧
      ∃ l1 l2, assets = l1 ++ w :: l2 ∧
        ∀ b ∈ l1, scoreAsset fe ph b < scoreAsset fe ph w := by
  rw [determine_best_asset_eq] at h
  rcases hfb : firstBest (fun x y : Int × MediaAsset => decide (y.1 < x.1))
      (assets.map (fun a => (scoreAsset fe ph a, a))) with _ | wp
  · rw [hfb] at h
    cases h
  · rw [hfb] at h
    have hw : wp.2 = w := by
      simpa using h
    obtain ⟨a, ha, hfa⟩ := List.mem_map.mp (firstBest_mem _ hfb)
    have hwp1 : wp.1 = scoreAsset fe ph w := by
      rw [← hfa] at hw ⊢
      rw [← hw]
    constructor
    · intro b hb
      have hbmem : (scoreAsset fe ph b, b) ∈
          assets.map (fun a => (scoreAsset fe ph a, a)) :=
        List.mem_map.mpr ⟨b, hb, rfl⟩
      have := firstBest_max Prod.fst hfb _ hbmem
      rw [hwp1] at this
      exact this
    · obtain ⟨L1, L2, hLeq, hLlt⟩ := firstBest_split Prod.fst hfb
      obtain ⟨l1, l2x, hassets, hmap1, hmap2⟩ := List.map_eq_append_iff.mp hLeq
      obtain ⟨w2, l2, hl2, hfw2, hmap3⟩ := List.map_eq_cons_iff.mp hmap2
      have hw2 : w2 = w := by
        rw [← hw, ← hfw2]
      refine ⟨l1, l2, by rw [hassets, hl2, hw2], ?_⟩
      intro b hb
      have hbmem : (scoreAsset fe ph b, b) ∈ L1 := by
        rw [← hmap1]
        exact List.mem_map.mpr ⟨b, hb, rfl⟩
      have := hLlt _ hbmem
      rw [hwp1] at this
      exact this

/-! ### Row-level facts about the two UPDATE statements -/

theorem demoteRow_id (k : String × String × String) (a : MediaAsset) :
    (demoteRow k a).id = a.id := by
  unfold demoteRow
  split <;> rfl

theorem promoteRow_id (i : Nat) (a : MediaAsset) :
    (promoteRow i a).id = a.id := by
  unfold promoteRow
  split <;> rfl

theorem demoteRow_groupKey (k : String × String × String) (a : MediaAsset) :
    groupKey (demoteRow k a) = groupKey a := by
  unfold demoteRow
  split <;> rfl

theorem promoteRow_groupKey (i : Nat) (a : MediaAsset) :
    groupKey (promoteRow i a) = groupKey a := by
  unfold promoteRow
  split <;> rfl

theorem demoteRow_preferred (k : String × String × String) (a : MediaAsset) :
    (demoteRow k a).preferred = if groupKey a = k then false else a.preferred := by
  unfold demoteRow
  split <;> rfl

theorem promoteRow_preferred (i : Nat) (a : MediaAsset) :
    (promoteRow i a).preferred = if a.id = i then true else a.preferred := by
  unfold promoteRow
  split <;> rfl

theorem erasePreferred_demoteRow (k : String × String × String) (a : MediaAsset) :
    erasePreferred (demoteRow k a) = erasePreferred a := by
  unfold demoteRow
  split <;> rfl

theorem erasePreferred_promoteRow (i : Nat) (a : MediaAsset) :
    erasePreferred (promoteRow i a) = erasePreferred a := by
  unfold promoteRow
  split <;> rfl

/-! ### Facts about the per-group fetch and the scanner count -/

theorem mem_fetchPreferred (db : List MediaAsset) (k : String × String × String)
    (a : MediaAsset) :
    a ∈ fetchPreferred db k ↔ a ∈ db ∧ groupKey a = k ∧ a.preferred = true := by
  unfold fetchPreferred
  rw [mem_stableSortDesc, List.mem_filter]
  simp [Bool.and_eq_true, and_assoc]

theorem length_fetchPreferred (db : List MediaAsset) (k : String × String × String) :
    (fetchPreferred db k).length = countPreferred db k := by
  unfold fetchPreferred countPreferred
  rw [length_stableSortDesc, List.countP_eq_length_filter]

theorem fetchPreferred_ne_nil (db : List MediaAsset) (k : String × String × String)
    (h : 0 < countPreferred db k) : fetchPreferred db k ≠ [] := by
  intro hnil
  rw [← length_fetchPreferred, hnil] at h
  exact absurd h (by simp)

/-! ### Facts about one iteration of the fix loop -/

theorem fixGroup_none_eq (fe : String → Bool) (ph : String → Int)
    (db : List MediaAsset) (k : String × String × String)
    (h : determine_best_asset fe ph (fetchPreferred db k) = none) :
    fixGroup fe ph db k = db := by
  simp only [fixGroup, h]

theorem fixGroup_some_eq (fe : String → Bool) (ph : String → Int)
    (db : List MediaAsset) (k : String × String × String) (best : MediaAsset)
    (h : determine_best_asset fe ph (fetchPreferred db k) = some best) :
    fixGroup fe ph db k = db.map (fun a => promoteRow best.id (demoteRow k a)) := by
  simp only [fixGroup, h, List.map_map]
  rfl

theorem determine_best_asset_mem (fe : String → Bool) (ph : String → Int)
    {assets : List MediaAsset} {w : MediaAsset}
    (h : determine_best_asset fe ph assets = some w) : w ∈ assets := by
  obtain ⟨-, l1, l2, hsplit, -⟩ := determine_best_asset_spec fe ph h
  rw [hsplit]
  exact List.mem_append_right l1 (List.mem_cons_self w l2)

theorem countPreferred_fixGroup_self (fe : String → Bool) (ph : String → Int)
    {db : List MediaAsset} {k : String × String × String}
    (hids : (db.map MediaAsset.id).Nodup) (hpos : 0 < countPreferred db k) :
    countPreferred (fixGroup fe ph db k) k = 1 := by
  obtain ⟨best, hbsome, hbmem⟩ :=
    determine_best_asset_isSome fe ph (fetchPreferred_ne_nil db k hpos)
  obtain ⟨hbdb, hbkey, hbpref⟩ := (mem_fetchPreferred db k best).mp hbmem
  rw [fixGroup_some_eq fe ph db k best hbsome]
  unfold countPreferred
  rw [List.countP_map]
  have hinj := List.inj_on_of_nodup_map hids
  have hpt : ∀ a ∈ db,
      ((fun a => decide (groupKey a = k) && a.preferred) ∘
        (fun a => promoteRow best.id (demoteRow k a))) a = true ↔
      (fun a => decide (a.id = best.id)) a = true := by
    intro a ha
    simp only [Function.comp]
    rw [promoteRow_groupKey, demoteRow_groupKey, promoteRow_preferred,
      demoteRow_id, demoteRow_preferred]
    by_cases hid : a.id = best.id
    · have haeq : a = best := hinj ha hbdb hid
      rw [if_pos hid]
      simp [haeq, hbkey, hid]
    · rw [if_neg hid]
      by_cases hk : groupKey a = k
      · rw [if_pos hk]
        simp [hid]
      · rw [if_neg hk]
        simp [hk, hid]
  rw [List.countP_congr hpt]
  have h1 : List.countP (fun a => decide (a.id = best.id)) db
      = List.countP (fun i => decide (i = best.id)) (db.map MediaAsset.id) := by
    rw [List.countP_map]
    rfl
  have h2 : List.countP (fun i => decide (i = best.id)) (db.map MediaAsset.id)
      = List.count best.id (db.map MediaAsset.id) := by
    rw [List.count_eq_countP]
    apply List.countP_congr
    intro i _
    simp
  rw [h1, h2]
  exact List.count_eq_one_of_mem hids (List.mem_map_of_mem _ hbdb)

theorem countPreferred_fixGroup_other (fe : String → Bool) (ph : String → Int)
    {db : List MediaAsset} {k q : String × String × String}
    (hids : (db.map MediaAsset.id).Nodup) (hne : k ≠ q) :
    countPreferred (fixGroup fe ph db q) k = countPreferred db k := by
  rcases hbs : determine_best_asset fe ph (fetchPreferred db q) with _ | best
  · rw [fixGroup_none_eq fe ph db q hbs]
  · obtain ⟨hbdb, hbkey, hbpref⟩ :=
      (mem_fetchPreferred db q best).mp (determine_best_asset_mem fe ph hbs)
    have hinj := List.inj_on_of_nodup_map hids
    rw [fixGroup_some_eq fe ph db q best hbs]
    unfold countPreferred
    rw [List.countP_map]
    apply List.countP_congr
    intro a ha
    simp only [Function.comp]
    rw [promoteRow_groupKey, demoteRow_groupKey, promoteRow_preferred,
      demoteRow_id, demoteRow_preferred]
    by_cases hid : a.id = best.id
    · have haeq : a = best := hinj ha hbdb hid
      rw [if_pos hid]
      have hak : groupKey a ≠ k := by
        rw [haeq, hbkey]
        exact Ne.symm hne
      simp [hak]
    · rw [if_neg hid]
      by_cases hq : groupKey a = q
      · rw [if_pos hq]
        have hak : groupKey a ≠ k := by
          rw [hq]
          exact Ne.symm hne
        simp [hak]
      · rw [if_neg hq]

theorem map_id_fixGroup (fe : String → Bool) (ph : String → Int)
    (db : List MediaAsset) (k : String × String × String) :
    (fixGroup fe ph db k).map MediaAsset.id = db.map MediaAsset.id := by
  rcases hbs : determine_best_asset fe ph (fetchPreferred db k) with _ | best
  · rw [fixGroup_none_eq fe ph db k hbs]
  · rw [fixGroup_some_eq fe ph db k best hbs, List.map_map]
    apply List.map_congr_left
    intro a _
    simp only [Function.comp]
    rw [promoteRow_id, demoteRow_id]

theorem map_erasePreferred_fixGroup (fe : String → Bool) (ph : String → Int)
    (db : List MediaAsset) (k : String × String × String) :
    (fixGroup fe ph db k).map erasePreferred = db.map erasePreferred := by
  rcases hbs : determine_best_asset fe ph (fetchPreferred db k) with _ | best
  · rw [fixGroup_none_eq fe ph db k hbs]
  · rw [fixGroup_some_eq fe ph db k best hbs, List.map_map]
    apply List.map_congr_left
    intro a _
    simp only [Function.comp]
    rw [erasePreferred_promoteRow, erasePreferred_demoteRow]

theorem map_id_foldl (fe : String → Bool) (ph : String → Int) :
    ∀ (ks : List (String × String × String)) (db : List MediaAsset),
    (ks.foldl (fixGroup fe ph) db).map MediaAsset.id = db.map MediaAsset.id := by
  intro ks
  induction ks with
  | nil => intro db; rfl
  | cons q ks ih =>
    intro db
    rw [List.foldl_cons, ih, map_id_fixGroup]

theorem map_erasePreferred_foldl (fe : String → Bool) (ph : String → Int) :
    ∀ (ks : List (String × String × String)) (db : List MediaAsset),
    (ks.foldl (fixGroup fe ph) db).map erasePreferred = db.map erasePreferred := by
  intro ks
  induction ks with
  | nil => intro db; rfl
  | cons q ks ih =>
    intro db
    rw [List.foldl_cons, ih, map_erasePreferred_fixGroup]

theorem countPreferred_foldl_not_mem (fe : String → Bool) (ph : String → Int) :
    ∀ (ks : List (String × String × String)) (db : List MediaAsset)
    (k : String × String × String), (db.map MediaAsset.id).Nodup → k ∉ ks →
    countPreferred (ks.foldl (fixGroup fe ph) db) k = countPreferred db k := by
  intro ks
  induction ks with
  | nil => intro db k _ _; rfl
  | cons q ks ih =>
    intro db k hids hk
    rw [List.foldl_cons]
    have hids1 : ((fixGroup fe ph db q).map MediaAsset.id).Nodup := by
      rw [map_id_fixGroup]
      exact hids
    have hkq : k ≠ q := fun hc => hk (hc ▸ List.mem_cons_self q ks)
    rw [ih _ _ hids1 (fun hc => hk (List.mem_cons_of_mem _ hc))]
    exact countPreferred_fixGroup_other fe ph hids hkq

theorem countPreferred_foldl_mem (fe : String → Bool) (ph : String → Int) :
    ∀ (ks : List (String × String × String)) (db : List MediaAsset)
    (k : String × String × String), (db.map MediaAsset.id).Nodup → ks.Nodup →
    k ∈ ks → 0 < countPreferred db k →
    countPreferred (ks.foldl (fixGroup fe ph) db) k = 1 := by
  intro ks
  induction ks with
  | nil => intro db k _ _ hk _; cases hk
  | cons q ks ih =>
    intro db k hids hnd hk hpos
    rw [List.foldl_cons]
    have hids1 : ((fixGroup fe ph db q).map MediaAsset.id).Nodup := by
      rw [map_id_fixGroup]
      exact hids
    rcases List.mem_cons.mp hk with rfl | hk2
    · have h1 : countPreferred (fixGroup fe ph db k) k = 1 :=
        countPreferred_fixGroup_self fe ph hids hpos
      rw [countPreferred_foldl_not_mem fe ph ks _ k hids1 (List.nodup_cons.mp hnd).1]
      exact h1
    · have hne : k ≠ q := by
        intro hc
        subst hc
        exact (List.nodup_cons.mp hnd).1 hk2
      have hpos1 : 0 < countPreferred (fixGroup fe ph db q) k := by
        rw [countPreferred_fixGroup_other fe ph hids hne]
        exact hpos
      exact ih _ _ hids1 (List.nodup_cons.mp hnd).2 hk2 hpos1

theorem conflictKeys_nodup (db : List MediaAsset) : (conflictKeys db).Nodup :=
  List.Nodup.filter _ (List.nodup_dedup _)

theorem mem_conflictKeys (db : List MediaAsset) (k : String × String × String) :
    k ∈ conflictKeys db ↔ 1 < countPreferred db k := by
  unfold conflictKeys
  rw [List.mem_filter]
  constructor
  · intro h
    exact of_decide_eq_true h.2
  · intro h
    refine ⟨?_, decide_eq_true h⟩
    rw [List.mem_dedup]
    have hpos : 0 < countPreferred db k := lt_trans Nat.zero_lt_one h
    obtain ⟨a, ha, hpa⟩ := List.countP_pos_iff.mp hpos
    rw [Bool.and_eq_true] at hpa
    rw [List.mem_map]
    exact ⟨a, List.mem_filter.mpr ⟨ha, hpa.2⟩, of_decide_eq_true hpa.1⟩

/-! ### Whole-run lemmas -/

theorem countPreferred_fix (fe : String → Bool) (ph : String → Int)
    {db : List MediaAsset} {k : String × String × String}
    (hids : (db.map MediaAsset.id).Nodup) (hk : k ∈ conflictKeys db) :
    countPreferred (fix_preferred_assets fe ph db) k = 1 := by
  unfold fix_preferred_assets
  exact countPreferred_foldl_mem fe ph _ _ _ hids (conflictKeys_nodup db) hk
    (lt_trans Nat.zero_lt_one ((mem_conflictKeys db k).mp hk))

theorem countPreferred_fix_le_one (fe : String → Bool) (ph : String → Int)
    {db : List MediaAsset} (hids : (db.map MediaAsset.id).Nodup)
    (k : String × String × String) :
    countPreferred (fix_preferred_assets fe ph db) k ≤ 1 := by
  by_cases hk : k ∈ conflictKeys db
  · rw [countPreferred_fix fe ph hids hk]
  · unfold fix_preferred_assets
    rw [countPreferred_foldl_not_mem fe ph _ _ _ hids hk]
    by_contra h
    push_neg at h
    exact hk ((mem_conflictKeys db k).mpr h)

theorem conflictKeys_fix (fe : String → Bool) (ph : String → Int)
    {db : List MediaAsset} (hids : (db.map MediaAsset.id).Nodup) :
    conflictKeys (fix_preferred_assets fe ph db) = [] := by
  rw [List.eq_nil_iff_forall_not_mem]
  intro k hk
  have h1 := (mem_conflictKeys _ k).mp hk
  have h2 := countPreferred_fix_le_one fe ph hids k
  omega

theorem pairwise_fetchPreferred (db : List MediaAsset) (k : String × String × String) :
    (fetchPreferred db k).Pairwise (fun a b => b.created_at ≤ a.created_at) := by
  unfold fetchPreferred
  apply pairwise_stableSortDesc
  · intro a b h
    exact le_of_lt (of_decide_eq_true h)
  · intro a b h
    exact le_of_not_lt (of_decide_eq_false h)
  · intro a b c hab hbc
    exact le_trans hbc hab

/-! ### Score-component bounds -/

theorem existsScore_of_exists (fe : String → Bool) {a : MediaAsset}
    (h : fe a.path = true) : existsScore fe a = 1000 := by
  unfold existsScore
  rw [if_pos h]

theorem existsScore_of_missing (fe : String → Bool) {a : MediaAsset}
    (h : fe a.path = false) : existsScore fe a = 0 := by
  unfold existsScore
  rw [if_neg (by rw [h]; exact Bool.false_ne_true)]

theorem existsScore_bounds (fe : String → Bool) (a : MediaAsset) :
    0 ≤ existsScore fe a ∧ existsScore fe a ≤ 1000 := by
  unfold existsScore
  split_ifs <;> omega

theorem sourceScore_bounds (a : MediaAsset) :
    70 ≤ sourceScore a ∧ sourceScore a ≤ 100 := by
  unfold sourceScore
  split_ifs <;> omega

theorem pluginScore_bounds (a : MediaAsset) :
    10 ≤ pluginScore a ∧ pluginScore a ≤ 20 := by
  unfold pluginScore
  split_ifs <;> omega

theorem recencyScore_bounds (ph : String → Int) (a : MediaAsset) :
    0 ≤ recencyScore ph a ∧ recencyScore ph a ≤ 9 := by
  unfold recencyScore
  split_ifs
  · have h1 : 0 ≤ ph a.created_at % 10 :=
      Int.emod_nonneg _ (by norm_num)
    have h2 : ph a.created_at % 10 < 10 :=
      Int.emod_lt_of_pos _ (by norm_num)
    omega
  · omega

/-! ### Concrete sample rows used by the witnesses -/

/-- Sample conflicting row: `core` source, newest timestamp. -/
def rowCoverA : MediaAsset :=
  { id := 1, entity_type := "track", entity_id := "e1", type := "cover",
    path := "a.jpg", source := "core", plugin_id := none,
    created_at := "2024-01-02", preferred := true }

/-- Sample conflicting row: same group as `rowCoverA`, older timestamp. -/
def rowCoverB : MediaAsset :=
  { id := 2, entity_type := "track", entity_id := "e1", type := "cover",
    path := "b.jpg", source := "core", plugin_id := none,
    created_at := "2024-01-01", preferred := true }

/-- Sample row with source `embedded`. -/
def rowEmbedded : MediaAsset :=
  { id := 3, entity_type := "track", entity_id := "e2", type := "cover",
    path := "c.jpg", source := "embedded", plugin_id := none,
    created_at := "2024-02-01", preferred := true }

/-- Sample row with source `plugin`. -/
def rowPlugin : MediaAsset :=
  { id := 4, entity_type := "track", entity_id := "e2", type := "cover",
    path := "d.jpg", source := "plugin", plugin_id := none,
    created_at := "2024-02-02", preferred := true }

/-- Sample row with an empty (`NULL`) `created_at`. -/
def rowNoTimestamp : MediaAsset :=
  { id := 5, entity_type := "movie", entity_id := "e3", type := "poster",
    path := "e.jpg", source := "embedded", plugin_id := some "musicbrainz_enricher",
    created_at := "", preferred := true }

/-! ### The claims -/

/-- C2: in one run (one file-existence environment and one hash environment),
a candidate whose file exists on disk scores strictly higher than any
candidate whose file is missing, regardless of their sources, plugin ids and
timestamps: the 1000-point existence bonus dominates the at most
100 + 20 + 9 = 129 points available from the other components. -/
theorem C2_existence_dominance (fe : String → Bool) (ph : String → Int)
    (a b : MediaAsset) (ha : fe a.path = true) (hb : fe b.path = false) :
    scoreAsset fe ph b < scoreAsset fe ph a := by
  unfold scoreAsset
  rw [existsScore_of_exists fe ha, existsScore_of_missing fe hb]
  have s1 := sourceScore_bounds a
  have s2 := sourceScore_bounds b
  have p1 := pluginScore_bounds a
  have p2 := pluginScore_bounds b
  have r1 := recencyScore_bounds ph a
  have r2 := recencyScore_bounds ph b
  omega

/-- Witness for C2: the spec's scenario rows — Row A (`core`, no plugin,
file exists) beats Row B (`embedded`, `musicbrainz_enricher`, file
missing). -/
theorem C2_existence_dominance_witness :
    scoreAsset (fun s => s == "a.jpg") (fun _ => 0) rowNoTimestamp <
      scoreAsset (fun s => s == "a.jpg") (fun _ => 0) rowCoverA :=
  C2_existence_dominance (fun s => s == "a.jpg") (fun _ => 0) rowCoverA
    rowNoTimestamp (by decide) (by decide)

/-- C5: among candidates whose files both exist and whose plugin components
are equal, the source tiers are strictly ordered for every value of the two
recency tie-breakers: `embedded` (100) beats `plugin` (90) beats `core` (80)
beats any unrecognised source (70), each gap of 10 exceeding the maximal
recency difference of 9. -/
theorem C5_source_ordering (fe : String → Bool) (ph : String → Int)
    (a b : MediaAsset) (hea : fe a.path = true) (heb : fe b.path = true)
    (hp : pluginScore a = pluginScore b) :
    ((a.source = "embedded" ∧ b.source = "plugin") →
      scoreAsset fe ph b < scoreAsset fe ph a) ∧
    ((a.source = "plugin" ∧ b.source = "core") →
      scoreAsset fe ph b < scoreAsset fe ph a) ∧
    ((a.source = "core" ∧ b.source ≠ "embedded" ∧ b.source ≠ "plugin" ∧
        b.source ≠ "core") →
      scoreAsset fe ph b < scoreAsset fe ph a) := by
  have r1 := recencyScore_bounds ph a
  have r2 := recencyScore_bounds ph b
  refine ⟨?_, ?_, ?_⟩ <;> intro hs
  · have s1 : sourceScore a = 100 := by
      unfold sourceScore
      rw [hs.1]
      decide
    have s2 : sourceScore b = 90 := by
      unfold sourceScore
      rw [hs.2]
      decide
    unfold scoreAsset
    rw [existsScore_of_exists fe hea, existsScore_of_exists fe heb, s1, s2, hp]
    omega
  · have s1 : sourceScore a = 90 := by
      unfold sourceScore
      rw [hs.1]
      decide
    have s2 : sourceScore b = 80 := by
      unfold sourceScore
      rw [hs.2]
      decide
    unfold scoreAsset
    rw [existsScore_of_exists fe hea, existsScore_of_exists fe heb, s1, s2, hp]
    omega
  · have s1 : sourceScore a = 80 := by
      unfold sourceScore
      rw [hs.1]
      decide
    have s2 : sourceScore b = 70 := by
      unfold sourceScore
      rw [if_neg hs.2.1, if_neg hs.2.2.1, if_neg hs.2.2.2]
    unfold scoreAsset
    rw [existsScore_of_exists fe hea, existsScore_of_exists fe heb, s1, s2, hp]
    omega

/-- Witness for C5: with both files present and no plugin ids, the
`embedded` row outscores the `plugin` row. -/
theorem C5_source_ordering_witness :
    scoreAsset (fun _ => true) (fun _ => 0) rowPlugin <
      scoreAsset (fun _ => true) (fun _ => 0) rowEmbedded :=
  (C5_source_ordering (fun _ => true) (fun _ => 0) rowEmbedded rowPlugin
    (by decide) (by decide) (by decide)).1 (by decide)

/-- C7: an empty candidate list makes `determine_best_asset` return `None`
(no crash), and a group whose fetch returns no rows is left untouched: the
demote/promote UPDATE pair is skipped, so no write happens for that group. -/
theorem C7_empty_candidates (fe : String → Bool) (ph : String → Int)
    (db : List MediaAsset) (k : String × String × String) :
    determine_best_asset fe ph ([] : List MediaAsset) = none ∧
      (fetchPreferred db k = [] → fixGroup fe ph db k = db) := by
  refine ⟨rfl, fun h => ?_⟩
  apply fixGroup_none_eq
  rw [h]
  rfl

/-- Witness for C7: a group key matching no row of a one-row database. -/
theorem C7_empty_candidates_witness :
    determine_best_asset (fun _ => true) (fun _ => 0) ([] : List MediaAsset) = none ∧
      fixGroup (fun _ => true) (fun _ => 0) [rowCoverA] ("x", "y", "z") = [rowCoverA] :=
  ⟨(C7_empty_candidates (fun _ => true) (fun _ => 0) [rowCoverA] ("x", "y", "z")).1,
    (C7_empty_candidates (fun _ => true) (fun _ => 0) [rowCoverA]
      ("x", "y", "z")).2 (by decide)⟩

/-- C8: if the database file is absent the entry point returns the
`missingDb` early exit, and if the database exists but the assets directory
is absent it returns the `missingAssetsDir` early exit; in both cases
neither the fix nor the verifier runs and the database is never touched. -/
theorem C8_missing_prerequisites (env : Env) (fe : String → Bool)
    (ph : String → Int) (db : List MediaAsset) :
    (env.dbExists = false →
      FixScript.main env fe ph db = RunOutcome.missingDb) ∧
    (env.dbExists = true → env.assetsDirExists = false →
      FixScript.main env fe ph db = RunOutcome.missingAssetsDir) := by
  constructor
  · intro h
    unfold FixScript.main
    rw [h]
    rfl
  · intro h1 h2
    unfold FixScript.main
    rw [h1, h2]
    rfl

/-- Witness for C8: both early exits at concrete environments. -/
theorem C8_missing_prerequisites_witness :
    FixScript.main ⟨false, true⟩ (fun _ => true) (fun _ => 0) [rowCoverA] =
      RunOutcome.missingDb ∧
    FixScript.main ⟨true, false⟩ (fun _ => true) (fun _ => 0) [rowCoverA] =
      RunOutcome.missingAssetsDir :=
  ⟨(C8_missing_prerequisites ⟨false, true⟩ (fun _ => true) (fun _ => 0)
      [rowCoverA]).1 rfl,
    (C8_missing_prerequisites ⟨true, false⟩ (fun _ => true) (fun _ => 0)
      [rowCoverA]).2 rfl rfl⟩

/-- C9: the recency component is always an integer in [0, 9] (Python's `%`
with positive modulus is the Euclidean remainder), it is 0 when `created_at`
is missing/empty, and the total score of any candidate lies in
[0 + 70 + 10 + 0, 1000 + 100 + 20 + 9] = [80, 1129]. -/
theorem C9_score_bounds (fe : String → Bool) (ph : String → Int)
    (a : MediaAsset) :
    (0 ≤ recencyScore ph a ∧ recencyScore ph a ≤ 9) ∧
    (a.created_at = "" → recencyScore ph a = 0) ∧
    80 ≤ scoreAsset fe ph a ∧ scoreAsset fe ph a ≤ 1129 := by
  have r := recencyScore_bounds ph a
  have e := existsScore_bounds fe a
  have s := sourceScore_bounds a
  have p := pluginScore_bounds a
  refine ⟨r, fun h => ?_, ?_, ?_⟩
  · unfold recencyScore
    rw [if_neg (by simp [h])]
  · unfold scoreAsset
    omega
  · unfold scoreAsset
    omega

/-- Witness for C9: the empty-timestamp row has recency component 0 and a
total score inside [80, 1129]. -/
theorem C9_score_bounds_witness :
    (0 ≤ recencyScore (fun _ => 7) rowNoTimestamp ∧
      recencyScore (fun _ => 7) rowNoTimestamp ≤ 9) ∧
    recencyScore (fun _ => 7) rowNoTimestamp = 0 ∧
    80 ≤ scoreAsset (fun _ => true) (fun _ => 7) rowNoTimestamp ∧
    scoreAsset (fun _ => true) (fun _ => 7) rowNoTimestamp ≤ 1129 := by
  have h := C9_score_bounds (fun _ => true) (fun _ => 7) rowNoTimestamp
  exact ⟨h.1, h.2.1 (by decide), h.2.2.1, h.2.2.2⟩

/-- C1: every (entity_type, entity_id, asset_type) group returned by the
scanner before the fix (i.e. having more than one `preferred = 1` row) has
exactly one `preferred = 1` row after `fix_preferred_assets` completes.
The hypothesis that row ids are pairwise distinct reflects that `id` is the
table's unique key. -/
theorem C1_invariant_restoration (fe : String → Bool) (ph : String → Int)
    (db : List MediaAsset) (k : String × String × String)
    (hids : (db.map MediaAsset.id).Nodup) (hk : k ∈ conflictKeys db) :
    countPreferred (fix_preferred_assets fe ph db) k = 1 :=
  countPreferred_fix fe ph hids hk

/-- Witness for C1: a two-row conflict group collapses to one preferred
row. -/
theorem C1_invariant_restoration_witness :
    countPreferred (fix_preferred_assets (fun _ => true) (fun _ => 0)
      [rowCoverA, rowCoverB]) ("track", "e1", "cover") = 1 :=
  C1_invariant_restoration (fun _ => true) (fun _ => 0) [rowCoverA, rowCoverB]
    ("track", "e1", "cover") (by decide) (by decide)

/-- C3 (counterexample to the claim as stated): the output of
`determine_best_asset` is NOT a deterministic function of the candidate rows
and file-existence results across separate invocations/processes.  The
recency term is `hash(created_at) % 10`, and CPython salts string hashes per
process (PYTHONHASHSEED), so the hash environment is a per-process input:
two hash environments agreeing nowhere relevant yield different winners on
the very same candidate list (a tie between two `core` rows is broken
differently). -/
theorem C3_counterexample :
    determine_best_asset (fun _ => true) (fun _ => 0) [rowCoverA, rowCoverB] ≠
      determine_best_asset (fun _ => true)
        (fun s => if s = "2024-01-01" then 9 else 0) [rowCoverA, rowCoverB] := by
  decide

/-- C3 (amended): within one process — i.e. given one fixed string-hash
environment — `determine_best_asset` is deterministic: it depends on the
hash environment only through the hash values of the candidates'
`created_at` strings, so two runs whose hash functions agree on those
strings (in particular, two runs in the same process) select the same
winner from identical candidate rows and identical file-existence
results. -/
theorem C3_determinism_fixed_hash (fe : String → Bool) (ph1 ph2 : String → Int)
    (assets : List MediaAsset)
    (h : ∀ a ∈ assets, ph1 a.created_at = ph2 a.created_at) :
    determine_best_asset fe ph1 assets = determine_best_asset fe ph2 assets := by
  rw [determine_best_asset_eq, determine_best_asset_eq]
  have hm : assets.map (fun a => (scoreAsset fe ph1 a, a)) =
      assets.map (fun a => (scoreAsset fe ph2 a, a)) := by
    apply List.map_congr_left
    intro a ha
    have hr : recencyScore ph1 a = recencyScore ph2 a := by
      unfold recencyScore
      split_ifs
      · rw [h a ha]
      · rfl
    unfold scoreAsset
    rw [hr]
  rw [hm]

/-- Witness for C3 (amended): two hash environments that agree on the
candidates' timestamps produce the same winner. -/
theorem C3_determinism_fixed_hash_witness :
    determine_best_asset (fun _ => true) (fun _ => 0) [rowCoverA, rowCoverB] =
      determine_best_asset (fun _ => true)
        (fun s => if s = "other" then 5 else 0) [rowCoverA, rowCoverB] :=
  C3_determinism_fixed_hash (fun _ => true) (fun _ => 0)
    (fun s => if s = "other" then 5 else 0) [rowCoverA, rowCoverB] (by decide)

/-- C4: after one run of `fix_preferred_assets` the scanner query finds zero
conflict groups, so a second run folds over an empty conflict list and
returns the database unchanged: running the fix twice equals running it
once.  Row ids are assumed pairwise distinct (`id` is the unique key). -/
theorem C4_idempotence (fe : String → Bool) (ph : String → Int)
    (db : List MediaAsset) (hids : (db.map MediaAsset.id).Nodup) :
    conflictKeys (fix_preferred_assets fe ph db) = [] ∧
      fix_preferred_assets fe ph (fix_preferred_assets fe ph db) =
        fix_preferred_assets fe ph db := by
  have h := conflictKeys_fix fe ph hids
  refine ⟨h, ?_⟩
  have h2 : fix_preferred_assets fe ph (fix_preferred_assets fe ph db) =
      (conflictKeys (fix_preferred_assets fe ph db)).foldl (fixGroup fe ph)
        (fix_preferred_assets fe ph db) := rfl
  rw [h2, h]
  rfl

/-- Witness for C4: the two-row conflict database. -/
theorem C4_idempotence_witness :
    conflictKeys (fix_preferred_assets (fun _ => true) (fun _ => 0)
      [rowCoverA, rowCoverB]) = [] ∧
      fix_preferred_assets (fun _ => true) (fun _ => 0)
        (fix_preferred_assets (fun _ => true) (fun _ => 0)
          [rowCoverA, rowCoverB]) =
        fix_preferred_assets (fun _ => true) (fun _ => 0)
          [rowCoverA, rowCoverB] :=
  C4_idempotence (fun _ => true) (fun _ => 0) [rowCoverA, rowCoverB] (by decide)

/-- C6: a completed run (both prerequisite paths present) returns exactly
the fix's output database together with the verifier's report — the
verifier writes nothing — and the fix itself only flips `preferred` flags:
positionally, every row of the output agrees with the input row on every
column except `preferred`, and no row is inserted or deleted (the length is
unchanged). -/
theorem C6_frame_only_preferred (env : Env) (fe : String → Bool)
    (ph : String → Int) (db : List MediaAsset)
    (hdb : env.dbExists = true) (had : env.assetsDirExists = true) :
    FixScript.main env fe ph db =
      RunOutcome.completed (fix_preferred_assets fe ph db)
        (verify_fix (fix_preferred_assets fe ph db)) ∧
    (fix_preferred_assets fe ph db).map erasePreferred =
      db.map erasePreferred ∧
    (fix_preferred_assets fe ph db).length = db.length := by
  refine ⟨?_, ?_, ?_⟩
  · unfold FixScript.main
    rw [hdb, had]
    rfl
  · exact map_erasePreferred_foldl fe ph (conflictKeys db) db
  · have h := map_erasePreferred_foldl fe ph (conflictKeys db) db
    have h2 := congrArg List.length h
    simpa using h2

/-- Witness for C6: the two-row conflict database under a complete
environment. -/
theorem C6_frame_only_preferred_witness :
    FixScript.main ⟨true, true⟩ (fun _ => true) (fun _ => 0)
        [rowCoverA, rowCoverB] =
      RunOutcome.completed
        (fix_preferred_assets (fun _ => true) (fun _ => 0)
          [rowCoverA, rowCoverB])
        (verify_fix (fix_preferred_assets (fun _ => true) (fun _ => 0)
          [rowCoverA, rowCoverB])) ∧
    (fix_preferred_assets (fun _ => true) (fun _ => 0)
        [rowCoverA, rowCoverB]).map erasePreferred =
      [rowCoverA, rowCoverB].map erasePreferred ∧
    (fix_preferred_assets (fun _ => true) (fun _ => 0)
        [rowCoverA, rowCoverB]).length = [rowCoverA, rowCoverB].length :=
  C6_frame_only_preferred ⟨true, true⟩ (fun _ => true) (fun _ => 0)
    [rowCoverA, rowCoverB] rfl rfl

/-- C10: when `determine_best_asset` returns a winner for the candidate list
the caller fetched (ordered by `created_at` descending), the winner attains
the maximal score; the stable sort makes it the earliest such candidate in
the fetched order (everything before it scores strictly less); and hence
every candidate tied at the maximal score has a `created_at` string
lexicographically at most the winner's. -/
theorem C10_stable_tie_break (fe : String → Bool) (ph : String → Int)
    (db : List MediaAsset) (k : String × String × String) (w : MediaAsset)
    (hw : determine_best_asset fe ph (fetchPreferred db k) = some w) :
    w ∈ fetchPreferred db k ∧
    (∀ b ∈ fetchPreferred db k, scoreAsset fe ph b ≤ scoreAsset fe ph w) ∧
    (∃ l1 l2, fetchPreferred db k = l1 ++ w :: l2 ∧
      ∀ b ∈ l1, scoreAsset fe ph b < scoreAsset fe ph w) ∧
    (∀ t ∈ fetchPreferred db k, scoreAsset fe ph t = scoreAsset fe ph w →
      t.created_at ≤ w.created_at) := by
  obtain ⟨hmax, l1, l2, hsplit, hlt⟩ := determine_best_asset_spec fe ph hw
  refine ⟨determine_best_asset_mem fe ph hw, hmax, ⟨l1, l2, hsplit, hlt⟩, ?_⟩
  intro t ht hts
  have hsorted := pairwise_fetchPreferred db k
  rw [hsplit] at hsorted ht
  rw [List.pairwise_append] at hsorted
  rcases List.mem_append.mp ht with h1 | h2
  · exact absurd hts (ne_of_lt (hlt t h1))
  · rcases List.mem_cons.mp h2 with rfl | h3
    · exact le_refl _
    · exact (List.pairwise_cons.mp hsorted.2.1).1 t h3

/-- Witness for C10: in the two-row conflict group both rows tie, and the
winner is the first fetched row, which carries the greater timestamp. -/
theorem C10_stable_tie_break_witness :
    rowCoverA ∈ fetchPreferred [rowCoverA, rowCoverB] ("track", "e1", "cover") ∧
    (∀ b ∈ fetchPreferred [rowCoverA, rowCoverB] ("track", "e1", "cover"),
      scoreAsset (fun _ => true) (fun _ => 0) b ≤
        scoreAsset (fun _ => true) (fun _ => 0) rowCoverA) ∧
    (∃ l1 l2, fetchPreferred [rowCoverA, rowCoverB] ("track", "e1", "cover") =
        l1 ++ rowCoverA :: l2 ∧
      ∀ b ∈ l1, scoreAsset (fun _ => true) (fun _ => 0) b <
        scoreAsset (fun _ => true) (fun _ => 0) rowCoverA) ∧
    (∀ t ∈ fetchPreferred [rowCoverA, rowCoverB] ("track", "e1", "cover"),
      scoreAsset (fun _ => true) (fun _ => 0) t =
        scoreAsset (fun _ => true) (fun _ => 0) rowCoverA →
      t.created_at ≤ rowCoverA.created_at) :=
  by
  have hltfalse : ¬ (rowCoverA.created_at < rowCoverB.created_at) := by
    rw [String.lt_iff_toList_lt]
    decide
  have hfetch : fetchPreferred [rowCoverA, rowCoverB] ("track", "e1", "cover") =
      [rowCoverA, rowCoverB] := by
    unfold fetchPreferred
    rw [show List.filter
        (fun a => decide (groupKey a = ("track", "e1", "cover")) && a.preferred)
        [rowCoverA, rowCoverB] = [rowCoverA, rowCoverB] from by decide]
    rw [stableSortDesc_cons, stableSortDesc_cons]
    rw [show stableSortDesc
        (fun a b : MediaAsset => decide (b.created_at < a.created_at)) [] = []
      from rfl]
    rw [show insertSortedBy
        (fun a b : MediaAsset => decide (b.created_at < a.created_at))
        rowCoverB [] = [rowCoverB] from rfl]
    rw [insertSortedBy_cons]
    rw [if_neg (fun hc => hltfalse (of_decide_eq_true hc))]
  have hw : determine_best_asset (fun _ => true) (fun _ => 0)
      (fetchPreferred [rowCoverA, rowCoverB] ("track", "e1", "cover")) =
      some rowCoverA := by
    rw [hfetch]
    decide
  exact C10_stable_tie_break (fun _ => true) (fun _ => 0)
    [rowCoverA, rowCoverB] ("track", "e1", "cover") rowCoverA hw
